import Mathlib

/-!
Verification of the mercurial-clock virtual-time core.

Shallow embedding conventions:
* JS numbers that the program keeps finite (timestamps from `Date.now()`,
  rates handed to the engine) are modelled as exact rationals `ℚ`.
* Each engine action executes atomically at one real instant `now : ℚ`
  (the value `Date.now()` returns throughout that call).
* The Svelte `writable` store is modelled by the field `stored` (its
  current value); `set` overwrites `stored` and appends the snapshot to
  the list of published values the action returns.
* `requestAnimationFrame` bookkeeping: `rafId` is the engine's variable
  of the same name, `nextRafId` the next handle the host would hand out,
  and `rafPending` whether the host still holds an uncancelled, unfired
  callback registration.
-/

namespace MercurialClock

/-- `computeMercurialTime` from `src/lib/core/timeCalculation.ts`:
`displayMs = baseDisplayMs + (nowRealMs - baseRealMs) * rate`. -/
def computeMercurialTime (baseRealMs baseDisplayMs nowRealMs rate : ℚ) : ℚ :=
  let elapsedReal := nowRealMs - baseRealMs
  let elapsedDisplay := elapsedReal * rate
  baseDisplayMs + elapsedDisplay

/-- `MercurialTimeState` from `src/lib/core/types.ts` (instants as `ℚ`
milliseconds rather than `Date` objects). -/
structure MercurialTimeState where
  displayTime : ℚ
  realTime : ℚ
  rate : ℚ
  isRunning : Bool
deriving DecidableEq, Repr

/-- The mutable state of one `createMercurialTimeStore` instance
(`src/lib/core/mercurialTime.ts`): the closure variables `baseRealMs`,
`baseDisplayMs`, `rate`, `isRunning`, `rafId`, together with the host's
frame-callback registration (`nextRafId`, `rafPending`) and the
`writable` store's current value (`stored`). -/
structure Engine where
  baseRealMs : ℚ
  baseDisplayMs : ℚ
  rate : ℚ
  isRunning : Bool
  rafId : Option Nat
  nextRafId : Nat
  rafPending : Bool
  stored : MercurialTimeState
deriving DecidableEq, Repr

/-- `computeState`: builds a fresh snapshot from the current anchors,
rate and running flag against the instant `nowRealMs`. -/
def computeState (e : Engine) (nowRealMs : ℚ) : MercurialTimeState :=
  { displayTime := computeMercurialTime e.baseRealMs e.baseDisplayMs nowRealMs e.rate
    realTime := nowRealMs
    rate := e.rate
    isRunning := e.isRunning }

/-- `set(v)` on the writable store: overwrite the current value and
notify subscribers (the published snapshot is returned). -/
def storeSet (e : Engine) (v : MercurialTimeState) : Engine × List MercurialTimeState :=
  ({ e with stored := v }, [v])

/-- Reading the store (`get(store)` / the value a new subscriber is
called with): the writable's current value. -/
def storeRead (e : Engine) : MercurialTimeState :=
  e.stored

/-- `startLoop`: `if (rafId !== null) return; rafId = requestAnimationFrame(tick)`. -/
def startLoop (e : Engine) : Engine :=
  match e.rafId with
  | some _ => e
  | none =>
      { e with rafId := some e.nextRafId
               nextRafId := e.nextRafId + 1
               rafPending := true }

/-- `stopLoop`: `if (rafId !== null) { cancelAnimationFrame(rafId); rafId = null }`.
Cancelling clears any still-pending registration. -/
def stopLoop (e : Engine) : Engine :=
  match e.rafId with
  | some _ => { e with rafId := none, rafPending := false }
  | none => e

/-- The body of `tick`: `if (!isRunning) return; set(computeState());
rafId = requestAnimationFrame(tick)`. -/
def engineTick (e : Engine) (now : ℚ) : Engine × List MercurialTimeState :=
  if e.isRunning then
    let p := storeSet e (computeState e now)
    ({ p.1 with rafId := some p.1.nextRafId
                nextRafId := p.1.nextRafId + 1
                rafPending := true },
      p.2)
  else
    (e, [])

/-- The host fires the pending animation-frame callback (if any is still
registered): the registration is consumed, then `tick` runs. -/
def engineFireFrame (e : Engine) (now : ℚ) : Engine × List MercurialTimeState :=
  if e.rafPending then
    engineTick { e with rafPending := false } now
  else
    (e, [])

/-- `createMercurialTimeStore(initialRate)` at instant `now`: anchors at
`now`, `isRunning = true`, writable initialised with `computeState()`,
then `startLoop()`. -/
def engineCreate (initialRate now : ℚ) : Engine :=
  let base : Engine :=
    { baseRealMs := now
      baseDisplayMs := now
      rate := initialRate
      isRunning := true
      rafId := none
      nextRafId := 0
      rafPending := false
      stored := { displayTime := 0, realTime := 0, rate := 0, isRunning := false } }
  startLoop { base with stored := computeState base now }

/-- `setRate(newRate)`: re-anchor both anchors to `now`, store the new
rate, publish `computeState()`. -/
def engineSetRate (e : Engine) (newRate now : ℚ) : Engine × List MercurialTimeState :=
  let e1 := { e with baseRealMs := now, baseDisplayMs := now, rate := newRate }
  storeSet e1 (computeState e1 now)

/-- `reset()`: re-anchor both anchors to `now`, publish `computeState()`. -/
def engineReset (e : Engine) (now : ℚ) : Engine × List MercurialTimeState :=
  let e1 := { e with baseRealMs := now, baseDisplayMs := now }
  storeSet e1 (computeState e1 now)

/-- `start()`: no-op when already running, otherwise set
`isRunning = true`, `startLoop()`, publish `computeState()`. -/
def engineStart (e : Engine) (now : ℚ) : Engine × List MercurialTimeState :=
  if e.isRunning then
    (e, [])
  else
    let e1 := startLoop { e with isRunning := true }
    storeSet e1 (computeState e1 now)

/-- `stop()`: no-op when already stopped, otherwise set
`isRunning = false`, `stopLoop()`, publish `computeState()`. -/
def engineStop (e : Engine) (now : ℚ) : Engine × List MercurialTimeState :=
  if e.isRunning then
    let e1 := stopLoop { e with isRunning := false }
    storeSet e1 (computeState e1 now)
  else
    (e, [])

/-- `destroy()`: `stopLoop()` only; publishes nothing. -/
def engineDestroy (e : Engine) : Engine × List MercurialTimeState :=
  (stopLoop e, [])

/-- Fold a sequence of host frame firings (at the given instants) over an
engine, keeping only the resulting state. -/
def framesOnly (e : Engine) (ts : List ℚ) : Engine :=
  ts.foldl (fun a t => (engineFireFrame a t).1) e

/-- The engine states reachable from `createMercurialTimeStore` by the
public API and host frame firings. -/
inductive Reachable : Engine → Prop
  | create (initialRate now : ℚ) : Reachable (engineCreate initialRate now)
  | setRate {e : Engine} (r now : ℚ) : Reachable e → Reachable (engineSetRate e r now).1
  | reset {e : Engine} (now : ℚ) : Reachable e → Reachable (engineReset e now).1
  | start {e : Engine} (now : ℚ) : Reachable e → Reachable (engineStart e now).1
  | stop {e : Engine} (now : ℚ) : Reachable e → Reachable (engineStop e now).1
  | destroy {e : Engine} : Reachable e → Reachable (engineDestroy e).1
  | fire {e : Engine} (now : ℚ) : Reachable e → Reachable (engineFireFrame e now).1

/-!
Settings layer (`src/lib/utils/storage.ts`, `src/lib/core/types.ts`).

JavaScript runtime values reaching `normalizeSettings(raw: unknown)` are
modelled by `JSValue`; a JS number is a `JSNum` (`nan`, the two
infinities, or an exact finite value). Object fields are an association
list with distinct keys (JS objects cannot carry duplicate keys).
-/

/-- A JavaScript number: `NaN`, `Infinity`, `-Infinity`, or a finite
value (modelled exactly as a rational). -/
inductive JSNum where
  | nan
  | inf
  | negInf
  | fin (q : ℚ)
deriving DecidableEq, Repr

/-- A JavaScript runtime value, as far as `normalizeSettings` inspects
one: `null`, `undefined`, booleans, numbers, strings, and objects. -/
inductive JSValue where
  | null
  | undefined
  | bool (b : Bool)
  | num (n : JSNum)
  | str (s : String)
  | obj (fields : List (String × JSValue))

/-- JS property access `input.name`: the field's value, or `undefined`
when the object has no such field. -/
def getField (fields : List (String × JSValue)) (name : String) : JSValue :=
  match fields.lookup name with
  | some v => v
  | none => JSValue.undefined

/-- `v === "s"` for a string literal (the comparison `VALID_*.includes`
performs against each candidate). -/
def isStr (v : JSValue) (s : String) : Bool :=
  match v with
  | JSValue.str t => t == s
  | _ => false

/-- `Math.max` on two JS numbers. -/
def jsMax (a b : JSNum) : JSNum :=
  match a, b with
  | JSNum.nan, _ => JSNum.nan
  | _, JSNum.nan => JSNum.nan
  | JSNum.inf, _ => JSNum.inf
  | _, JSNum.inf => JSNum.inf
  | JSNum.negInf, x => x
  | x, JSNum.negInf => x
  | JSNum.fin p, JSNum.fin q => JSNum.fin (max p q)

/-- `Math.min` on two JS numbers. -/
def jsMin (a b : JSNum) : JSNum :=
  match a, b with
  | JSNum.nan, _ => JSNum.nan
  | _, JSNum.nan => JSNum.nan
  | JSNum.negInf, _ => JSNum.negInf
  | _, JSNum.negInf => JSNum.negInf
  | JSNum.inf, x => x
  | x, JSNum.inf => x
  | JSNum.fin p, JSNum.fin q => JSNum.fin (min p q)

/-- `clamp(value, min, max) = Math.min(Math.max(value, min), max)` from
`storage.ts`. -/
def clamp (value lo hi : JSNum) : JSNum :=
  jsMin (jsMax value lo) hi

/-- `RATE_MIN` from `types.ts`. -/
def RATE_MIN : ℚ := 1 / 10

/-- `RATE_MAX` from `types.ts`. -/
def RATE_MAX : ℚ := 10

/-- Decimal digits to a natural number. -/
def digitsToNat (ds : List Char) : Nat :=
  ds.foldl (fun a c => a * 10 + (c.toNat - Char.toNat '0')) 0

/-- Model of the ECMAScript builtin `parseFloat`: skip leading
whitespace, then read the longest prefix that is an optionally signed
decimal literal (`Infinity`, or digits with optional fraction and
optional exponent); `NaN` when no such prefix exists. Finite results are
exact rationals. -/
def parseFloatModel (s : String) : JSNum :=
  let cs := s.toList.dropWhile Char.isWhitespace
  let signAndRest : Bool × List Char :=
    match cs with
    | '+' :: rest => (false, rest)
    | '-' :: rest => (true, rest)
    | _ => (false, cs)
  let neg := signAndRest.1
  let cs := signAndRest.2
  if cs.take 8 = "Infinity".toList then
    if neg then JSNum.negInf else JSNum.inf
  else
    let intPart := cs.takeWhile Char.isDigit
    let cs1 := cs.dropWhile Char.isDigit
    let fracAndRest : List Char × List Char :=
      match cs1 with
      | '.' :: rest => (rest.takeWhile Char.isDigit, rest.dropWhile Char.isDigit)
      | _ => ([], cs1)
    let fracPart := fracAndRest.1
    let cs2 := fracAndRest.2
    if intPart = [] ∧ fracPart = [] then JSNum.nan
    else
      let mantissa : ℚ :=
        (digitsToNat intPart : ℚ) + (digitsToNat fracPart : ℚ) / (10 : ℚ) ^ fracPart.length
      let exp : ℤ :=
        match cs2 with
        | 'e' :: rest | 'E' :: rest =>
            let esignAndRest : Int × List Char :=
              match rest with
              | '+' :: r => (1, r)
              | '-' :: r => (-1, r)
              | _ => (1, rest)
            let edigits := esignAndRest.2.takeWhile Char.isDigit
            if edigits = [] then 0 else esignAndRest.1 * (digitsToNat edigits : ℤ)
        | _ => 0
      let v := mantissa * (10 : ℚ) ^ exp
      JSNum.fin (if neg then -v else v)

/-- `theme: 'classic'` from `types.ts`. -/
inductive Theme where
  | classic
deriving DecidableEq, Repr

/-- `colorMode: 'system' | 'light' | 'dark'` from `types.ts`. -/
inductive ColorMode where
  | system
  | light
  | dark
deriving DecidableEq, Repr

/-- The `Settings` interface from `types.ts`. The `rate` field is a JS
number (normalisation always leaves it finite, which the theorems
establish rather than assume). -/
structure Settings where
  rate : JSNum
  showSecondHand : Bool
  showNumbers : Bool
  showDigitalTime : Bool
  theme : Theme
  colorMode : ColorMode
deriving DecidableEq, Repr

/-- `DEFAULT_SETTINGS` from `types.ts`. -/
def DEFAULT_SETTINGS : Settings :=
  { rate := JSNum.fin (11 / 10)
    showSecondHand := false
    showNumbers := true
    showDigitalTime := false
    theme := Theme.classic
    colorMode := ColorMode.system }

/-- `normalizeSettings(raw: unknown)` from `storage.ts`: defaults for
`null`/`undefined` and non-objects; per-field normalisation otherwise
(coerce a string rate with `parseFloat`, keep only non-`NaN` numbers and
clamp them to `[RATE_MIN, RATE_MAX]`; keep only boolean flags; keep only
known `theme`/`colorMode` strings; everything else defaults). Only the
six known fields are read, so extra fields are dropped. -/
def normalizeSettings (raw : JSValue) : Settings :=
  match raw with
  | JSValue.null => DEFAULT_SETTINGS
  | JSValue.undefined => DEFAULT_SETTINGS
  | JSValue.bool _ => DEFAULT_SETTINGS
  | JSValue.num _ => DEFAULT_SETTINGS
  | JSValue.str _ => DEFAULT_SETTINGS
  | JSValue.obj fields =>
      let rate : JSNum :=
        match getField fields "rate" with
        | JSValue.undefined => DEFAULT_SETTINGS.rate
        | v =>
            let parsed : JSValue :=
              match v with
              | JSValue.str s => JSValue.num (parseFloatModel s)
              | _ => v
            match parsed with
            | JSValue.num JSNum.nan => DEFAULT_SETTINGS.rate
            | JSValue.num n => clamp n (JSNum.fin RATE_MIN) (JSNum.fin RATE_MAX)
            | _ => DEFAULT_SETTINGS.rate
      let showSecondHand : Bool :=
        match getField fields "showSecondHand" with
        | JSValue.bool b => b
        | _ => DEFAULT_SETTINGS.showSecondHand
      let showNumbers : Bool :=
        match getField fields "showNumbers" with
        | JSValue.bool b => b
        | _ => DEFAULT_SETTINGS.showNumbers
      let showDigitalTime : Bool :=
        match getField fields "showDigitalTime" with
        | JSValue.bool b => b
        | _ => DEFAULT_SETTINGS.showDigitalTime
      let theme : Theme :=
        if isStr (getField fields "theme") "classic" then Theme.classic
        else DEFAULT_SETTINGS.theme
      let colorMode : ColorMode :=
        if isStr (getField fields "colorMode") "system" then ColorMode.system
        else if isStr (getField fields "colorMode") "light" then ColorMode.light
        else if isStr (getField fields "colorMode") "dark" then ColorMode.dark
        else DEFAULT_SETTINGS.colorMode
      { rate := rate
        showSecondHand := showSecondHand
        showNumbers := showNumbers
        showDigitalTime := showDigitalTime
        theme := theme
        colorMode := colorMode }

/-- The string a `colorMode` value serialises to. -/
def colorModeToStr (c : ColorMode) : String :=
  match c with
  | ColorMode.system => "system"
  | ColorMode.light => "light"
  | ColorMode.dark => "dark"

/-- The JS object `JSON.parse(JSON.stringify(settings))` yields: a plain
object with the six fields; booleans, strings and finite numbers survive
the JSON round trip exactly, while a non-finite `rate` serialises as
`null`. -/
def settingsToJS (s : Settings) : JSValue :=
  JSValue.obj
    [("rate", match s.rate with
              | JSNum.fin q => JSValue.num (JSNum.fin q)
              | _ => JSValue.null),
     ("showSecondHand", JSValue.bool s.showSecondHand),
     ("showNumbers", JSValue.bool s.showNumbers),
     ("showDigitalTime", JSValue.bool s.showDigitalTime),
     ("theme", JSValue.str "classic"),
     ("colorMode", JSValue.str (colorModeToStr s.colorMode))]

/-- The text under the storage key, viewed through `JSON.parse`: either
a well-formed JSON document (carrying the parsed value) or text on which
`JSON.parse` throws (the empty string, caught earlier by `if (!stored)`,
also yields the default path, so it is folded into `malformed`). -/
inductive JSONText where
  | wellFormed (v : JSValue)
  | malformed

/-- `saveToStorage(settings)` from `storage.ts`, acting on the storage
cell: on success the cell holds the serialised settings; when the write
throws (quota, denied storage) the failure is swallowed and the cell is
unchanged. -/
def saveToStorage (settings : Settings) (prev : Option JSONText)
    (writeFails : Bool) : Option JSONText :=
  if writeFails then prev
  else some (JSONText.wellFormed (settingsToJS settings))

/-- `loadFromStorage()` from `storage.ts`, as a function of the outcome
of the `localStorage.getItem` read: defaults when the read throws, when
nothing (or the empty string) is stored, or when `JSON.parse` throws;
otherwise the parsed value is normalised. -/
def loadFromStorage (read : Except Unit (Option JSONText)) : Settings :=
  match read with
  | Except.error _ => DEFAULT_SETTINGS
  | Except.ok none => DEFAULT_SETTINGS
  | Except.ok (some JSONText.malformed) => DEFAULT_SETTINGS
  | Except.ok (some (JSONText.wellFormed v)) => normalizeSettings v

/-- A structurally valid `Settings` value in the sense of the spec: the
rate is finite and within `[RATE_MIN, RATE_MAX]` (the remaining fields
are valid by type). -/
def ValidSettings (s : Settings) : Prop :=
  ∃ q : ℚ, s.rate = JSNum.fin q ∧ RATE_MIN ≤ q ∧ q ≤ RATE_MAX

/-! ### Helper lemmas -/

@[simp] lemma stopLoop_baseRealMs (e : Engine) : (stopLoop e).baseRealMs = e.baseRealMs := by
  unfold stopLoop; split <;> rfl

@[simp] lemma stopLoop_baseDisplayMs (e : Engine) :
    (stopLoop e).baseDisplayMs = e.baseDisplayMs := by
  unfold stopLoop; split <;> rfl

@[simp] lemma stopLoop_rate (e : Engine) : (stopLoop e).rate = e.rate := by
  unfold stopLoop; split <;> rfl

@[simp] lemma stopLoop_isRunning (e : Engine) : (stopLoop e).isRunning = e.isRunning := by
  unfold stopLoop; split <;> rfl

@[simp] lemma stopLoop_stored (e : Engine) : (stopLoop e).stored = e.stored := by
  unfold stopLoop; split <;> rfl

@[simp] lemma stopLoop_rafId (e : Engine) : (stopLoop e).rafId = none := by
  unfold stopLoop; split <;> simp_all

@[simp] lemma startLoop_baseRealMs (e : Engine) : (startLoop e).baseRealMs = e.baseRealMs := by
  unfold startLoop; split <;> rfl

@[simp] lemma startLoop_baseDisplayMs (e : Engine) :
    (startLoop e).baseDisplayMs = e.baseDisplayMs := by
  unfold startLoop; split <;> rfl

@[simp] lemma startLoop_rate (e : Engine) : (startLoop e).rate = e.rate := by
  unfold startLoop; split <;> rfl

@[simp] lemma startLoop_isRunning (e : Engine) : (startLoop e).isRunning = e.isRunning := by
  unfold startLoop; split <;> rfl

@[simp] lemma startLoop_stored (e : Engine) : (startLoop e).stored = e.stored := by
  unfold startLoop; split <;> rfl

/-- `computeState` only reads the anchors, the rate and the running
flag, so it is unchanged by `stopLoop`. -/
@[simp] lemma computeState_stopLoop (e : Engine) (t : ℚ) :
    computeState (stopLoop e) t = computeState e t := by
  unfold computeState; simp

/-- `computeState` is unchanged by `startLoop`. -/
@[simp] lemma computeState_startLoop (e : Engine) (t : ℚ) :
    computeState (startLoop e) t = computeState e t := by
  unfold computeState; simp

/-- In every reachable engine state, a pending host registration is
matched by a non-null `rafId` (the engine never discards its handle
while the host still holds the callback). -/
lemma rafPending_imp_rafId {e : Engine} (h : Reachable e) :
    e.rafPending = true → e.rafId ≠ none := by
  induction h with
  | create r now => simp [engineCreate, startLoop]
  | setRate r now _ ih => simpa [engineSetRate, storeSet] using ih
  | reset now _ ih => simpa [engineReset, storeSet] using ih
  | start now _ ih =>
      unfold engineStart
      split
      · exact ih
      · unfold startLoop storeSet
        split <;> simp_all
  | stop now _ ih =>
      unfold engineStop
      split
      · unfold stopLoop storeSet
        split <;> simp_all
      · exact ih
  | destroy _ ih =>
      unfold engineDestroy stopLoop
      split <;> simp_all
  | fire now _ ih =>
      unfold engineFireFrame engineTick
      split
      · split <;> simp_all
      · exact ih

/-- A frame firing on a stopped engine publishes nothing and leaves the
store value and the running flag unchanged. -/
lemma fireFrame_stopped {e : Engine} (h : e.isRunning = false) (t : ℚ) :
    (engineFireFrame e t).1.stored = e.stored ∧
    (engineFireFrame e t).1.isRunning = false ∧
    (engineFireFrame e t).2 = [] := by
  unfold engineFireFrame engineTick
  split <;> simp_all

/-- `stopLoop` is idempotent. -/
lemma stopLoop_idem (e : Engine) : stopLoop (stopLoop e) = stopLoop e := by
  cases h : e.rafId <;> simp [stopLoop, h]

/-- Any number of frame firings on a stopped engine leave the store
value unchanged (and the engine stopped). -/
lemma framesOnly_stopped {e : Engine} (h : e.isRunning = false) (ts : List ℚ) :
    (framesOnly e ts).stored = e.stored ∧ (framesOnly e ts).isRunning = false := by
  induction ts generalizing e with
  | nil => exact ⟨rfl, h⟩
  | cons t ts ih =>
      have step := fireFrame_stopped h t
      have rest := ih step.2.1
      unfold framesOnly at rest ⊢
      simp only [List.foldl_cons]
      exact ⟨rest.1.trans step.1, rest.2⟩

/-! ### Claim theorems: the time mapping and the engine -/

/-- C1: for all numeric inputs, `computeMercurialTime` equals
`baseDisplayMs + (nowRealMs - baseRealMs) * rate`, and at
`nowRealMs = baseRealMs` it returns `baseDisplayMs` exactly, for every
rate including zero and negative rates. -/
theorem computeMercurialTime_spec (baseRealMs baseDisplayMs nowRealMs rate : ℚ) :
    computeMercurialTime baseRealMs baseDisplayMs nowRealMs rate
      = baseDisplayMs + (nowRealMs - baseRealMs) * rate ∧
    computeMercurialTime baseRealMs baseDisplayMs baseRealMs rate = baseDisplayMs := by
  refine ⟨rfl, ?_⟩
  simp [computeMercurialTime]

/-- C2 counterexample: the claim says a snapshot read at any instant is
freshly computed against that instant. On the engine created at real
time 0, a read at real time 5 (before any frame has fired) would then
have to equal `computeState` at 5; instead the store replays the cached
snapshot from creation time 0. -/
theorem storeRead_not_fresh_cex :
    storeRead (engineCreate 1 0) ≠ computeState (engineCreate 1 0) 5 := by
  intro hEq
  have h5 := congrArg MercurialTimeState.realTime hEq
  simp only [storeRead, engineCreate, startLoop, computeState] at h5
  norm_num at h5

/-- C2 (amended): every *published* snapshot is freshly computed from
the current anchors and rate at the instant of publication — a frame
tick publishes exactly `computeState` at the tick's instant — but a
read between publications returns the most recently published (cached)
snapshot, whose `realTime` is the instant of that last publication, not
of the read. -/
theorem published_snapshots_fresh (e : Engine) (now : ℚ) (h : e.isRunning = true) :
    (engineTick e now).2 = [computeState e now] ∧
    storeRead (engineTick e now).1 = computeState e now ∧
    (storeRead (engineTick e now).1).realTime = now := by
  unfold engineTick storeSet storeRead
  simp [h, computeState]

theorem published_snapshots_fresh_witness :
    (engineTick (engineCreate 1 0) 4).2 = [computeState (engineCreate 1 0) 4] ∧
    storeRead (engineTick (engineCreate 1 0) 4).1 = computeState (engineCreate 1 0) 4 ∧
    (storeRead (engineTick (engineCreate 1 0) 4).1).realTime = 4 :=
  published_snapshots_fresh (engineCreate 1 0) 4 rfl

/-- C3 counterexample: the claim says that after `destroy()` no further
snapshot is ever published, whatever operations follow. On the engine
created at time 0 and destroyed immediately, `setRate(2)` at time 1
still publishes a snapshot. -/
theorem destroy_not_absorbing_cex :
    (engineSetRate (engineDestroy (engineCreate 1 0)).1 2 1).2 ≠ [] := by
  simp [engineSetRate, storeSet]

/-- C3 (amended): `destroy()` publishes nothing, cancels the scheduling
handle and any pending frame registration, and a second `destroy()` is
a no-op rather than an error; hence no frame ever fires (and no
tick-driven snapshot is ever published) after `destroy()` as long as no
other operation is invoked. `destroy` is not absorbing, however:
operations invoked afterwards (e.g. `setRate`) still publish snapshots. -/
theorem destroy_cancels_scheduling {e : Engine} (h : Reachable e) :
    (engineDestroy e).2 = [] ∧
    ((engineDestroy e).1).rafId = none ∧
    ((engineDestroy e).1).rafPending = false ∧
    engineDestroy ((engineDestroy e).1) = engineDestroy e ∧
    ∀ t, engineFireFrame ((engineDestroy e).1) t = ((engineDestroy e).1, []) := by
  have hpend : ((engineDestroy e).1).rafPending = false := by
    unfold engineDestroy stopLoop
    split
    · rfl
    · next heq =>
        cases hp : e.rafPending with
        | false => rfl
        | true => exact absurd heq (rafPending_imp_rafId h hp)
  refine ⟨rfl, by simp [engineDestroy], hpend, ?_, ?_⟩
  · show (stopLoop (stopLoop e), _) = (stopLoop e, _)
    rw [stopLoop_idem]
  · intro t
    unfold engineFireFrame
    simp [hpend]

theorem destroy_cancels_scheduling_witness :
    (engineDestroy (engineCreate 1 0)).2 = [] ∧
    engineFireFrame ((engineDestroy (engineCreate 1 0)).1) 7
      = ((engineDestroy (engineCreate 1 0)).1, []) :=
  ⟨(destroy_cancels_scheduling (Reachable.create 1 0)).1,
   (destroy_cancels_scheduling (Reachable.create 1 0)).2.2.2.2 7⟩

/-- C4: immediately after `setRate(r)` at instant `now`, the readable
snapshot (also the one just published) has `displayTime = realTime`
(both anchors re-anchored to `now`) and `rate = r`. -/
theorem setRate_continuous (e : Engine) (r now : ℚ) :
    (storeRead (engineSetRate e r now).1).displayTime
      = (storeRead (engineSetRate e r now).1).realTime ∧
    (storeRead (engineSetRate e r now).1).rate = r ∧
    (engineSetRate e r now).2 = [storeRead (engineSetRate e r now).1] := by
  unfold engineSetRate storeSet storeRead
  simp [computeState, computeMercurialTime]

/-- C5: `stop()` on a running engine publishes exactly one snapshot,
frozen at the stop instant with `isRunning = false`; afterwards no
frame firing publishes anything, and a read after any number of frame
firings (i.e. however much real time elapses before `start()`) still
returns that same snapshot. -/
theorem stop_freezes_display (e : Engine) (now : ℚ) (h : e.isRunning = true) :
    (engineStop e now).2 = [storeRead (engineStop e now).1] ∧
    (storeRead (engineStop e now).1).isRunning = false ∧
    (storeRead (engineStop e now).1).displayTime
      = computeMercurialTime e.baseRealMs e.baseDisplayMs now e.rate ∧
    (∀ t, (engineFireFrame (engineStop e now).1 t).2 = []) ∧
    ∀ ts, storeRead (framesOnly (engineStop e now).1 ts) = storeRead (engineStop e now).1 := by
  have hrun : ((engineStop e now).1).isRunning = false := by
    unfold engineStop storeSet
    simp [h]
  refine ⟨?_, ?_, ?_, ?_, ?_⟩
  · unfold engineStop storeSet storeRead
    simp [h]
  · unfold engineStop storeSet storeRead
    simp [h, computeState]
  · unfold engineStop storeSet storeRead
    simp [h, computeState]
  · intro t
    exact (fireFrame_stopped hrun t).2.2
  · intro ts
    unfold storeRead
    exact (framesOnly_stopped hrun ts).1

theorem stop_freezes_display_witness :
    (engineStop (engineCreate 1 0) 2).2 = [storeRead (engineStop (engineCreate 1 0) 2).1] ∧
    (storeRead (engineStop (engineCreate 1 0) 2).1).isRunning = false ∧
    storeRead (framesOnly (engineStop (engineCreate 1 0) 2).1 [3, 4, 5])
      = storeRead (engineStop (engineCreate 1 0) 2).1 :=
  ⟨(stop_freezes_display (engineCreate 1 0) 2 rfl).1,
   (stop_freezes_display (engineCreate 1 0) 2 rfl).2.1,
   (stop_freezes_display (engineCreate 1 0) 2 rfl).2.2.2.2 [3, 4, 5]⟩

/-- C6: `stop()` leaves both anchors and the rate unchanged, so on a
`start()` at instant `t2` the first published snapshot shows
`displayTime = baseDisplayMs + (t2 - baseRealMs) * rate`; relative to
the frozen snapshot published by the `stop()` at `t1`, the display time
jumps by `(t2 - t1) * rate` — the stopped gap multiplied by the rate. -/
theorem stop_preserves_anchors_start_jump (e : Engine) (t1 t2 : ℚ)
    (h : e.isRunning = true) :
    ((engineStop e t1).1).baseRealMs = e.baseRealMs ∧
    ((engineStop e t1).1).baseDisplayMs = e.baseDisplayMs ∧
    ((engineStop e t1).1).rate = e.rate ∧
    (storeRead (engineStart (engineStop e t1).1 t2).1).displayTime
      = e.baseDisplayMs + (t2 - e.baseRealMs) * e.rate ∧
    (storeRead (engineStart (engineStop e t1).1 t2).1).displayTime
      - (storeRead (engineStop e t1).1).displayTime = (t2 - t1) * e.rate := by
  have hrun : ((engineStop e t1).1).isRunning = false := by
    unfold engineStop storeSet
    simp [h]
  have hfields : ((engineStop e t1).1).baseRealMs = e.baseRealMs ∧
      ((engineStop e t1).1).baseDisplayMs = e.baseDisplayMs ∧
      ((engineStop e t1).1).rate = e.rate := by
    unfold engineStop storeSet
    simp [h]
  have hstartDisp : (storeRead (engineStart (engineStop e t1).1 t2).1).displayTime
      = e.baseDisplayMs + (t2 - e.baseRealMs) * e.rate := by
    unfold engineStart storeSet storeRead
    simp [hrun, computeState, computeMercurialTime, hfields.1, hfields.2.1, hfields.2.2]
  have hstopDisp : (storeRead (engineStop e t1).1).displayTime
      = e.baseDisplayMs + (t1 - e.baseRealMs) * e.rate := by
    unfold engineStop storeSet storeRead
    simp [h, computeState, computeMercurialTime]
  refine ⟨hfields.1, hfields.2.1, hfields.2.2, hstartDisp, ?_⟩
  rw [hstartDisp, hstopDisp]
  ring

theorem stop_preserves_anchors_start_jump_witness :
    ((engineStop (engineCreate 1 0) 2).1).baseRealMs = (engineCreate 1 0).baseRealMs ∧
    (storeRead (engineStart (engineStop (engineCreate 1 0) 2).1 8).1).displayTime
      - (storeRead (engineStop (engineCreate 1 0) 2).1).displayTime
      = (8 - 2) * (engineCreate 1 0).rate :=
  ⟨(stop_preserves_anchors_start_jump (engineCreate 1 0) 2 8 rfl).1,
   (stop_preserves_anchors_start_jump (engineCreate 1 0) 2 8 rfl).2.2.2.2⟩

/-- Core invariant of reachable engine states: the two anchors coincide,
and the store value is the snapshot computed at some past instant. -/
lemma reachable_state_invariant {e : Engine} (h : Reachable e) :
    e.baseDisplayMs = e.baseRealMs ∧ ∃ t, e.stored = computeState e t := by
  induction h with
  | create r now =>
      refine ⟨by simp [engineCreate], now, ?_⟩
      simp [engineCreate, startLoop, computeState]
  | setRate r now _ ih =>
      refine ⟨by simp [engineSetRate, storeSet], now, ?_⟩
      simp [engineSetRate, storeSet, computeState]
  | reset now _ ih =>
      refine ⟨by simp [engineReset, storeSet], now, ?_⟩
      simp [engineReset, storeSet, computeState]
  | start now _ ih =>
      unfold engineStart
      split
      · exact ih
      · refine ⟨by simp [storeSet, ih.1], now, ?_⟩
        simp [storeSet, computeState]
  | stop now _ ih =>
      unfold engineStop
      split
      · refine ⟨by simp [storeSet, ih.1], now, ?_⟩
        simp [storeSet, computeState]
      · exact ih
  | destroy _ ih =>
      obtain ⟨hanch, t, hst⟩ := ih
      refine ⟨by simp [engineDestroy, hanch], t, ?_⟩
      simp [engineDestroy, hst]
  | fire now _ ih =>
      obtain ⟨hanch, t, hst⟩ := ih
      unfold engineFireFrame engineTick
      split
      · split
        · next hrun =>
            refine ⟨by simp [storeSet, hanch], now, ?_⟩
            simp [storeSet, computeState]
        · refine ⟨hanch, t, ?_⟩
          simpa [computeState] using hst
      · exact ⟨hanch, t, hst⟩

/-- C10: in every reachable engine state the two anchors are equal
(`baseDisplayMs = baseRealMs`), so every snapshot computed against an
instant `now` satisfies
`displayTime = realTime + (rate - 1) * (realTime - baseRealMs)`; in
particular the snapshot held by the store (computed at some past
instant) satisfies it too. -/
theorem anchors_equal_invariant {e : Engine} (h : Reachable e) :
    e.baseDisplayMs = e.baseRealMs ∧
    (∀ now, (computeState e now).displayTime
      = (computeState e now).realTime
        + (e.rate - 1) * ((computeState e now).realTime - e.baseRealMs)) ∧
    ∃ t, storeRead e = computeState e t := by
  obtain ⟨hanch, ht⟩ := reachable_state_invariant h
  refine ⟨hanch, ?_, ht⟩
  intro now
  simp [computeState, computeMercurialTime, hanch]
  ring

theorem anchors_equal_invariant_witness :
    (engineCreate 2 5).baseDisplayMs = (engineCreate 2 5).baseRealMs ∧
    (computeState (engineCreate 2 5) 7).displayTime
      = (computeState (engineCreate 2 5) 7).realTime
        + ((engineCreate 2 5).rate - 1)
          * ((computeState (engineCreate 2 5) 7).realTime - (engineCreate 2 5).baseRealMs) :=
  ⟨(anchors_equal_invariant (Reachable.create 2 5)).1,
   (anchors_equal_invariant (Reachable.create 2 5)).2.1 7⟩

/-! ### Claim theorems: the settings layer -/

/-- Clamping any non-`NaN` number to `[RATE_MIN, RATE_MAX]` yields a
finite value within the range. -/
lemma clamp_fin (n : JSNum) (hn : n ≠ JSNum.nan) :
    ∃ q, clamp n (JSNum.fin RATE_MIN) (JSNum.fin RATE_MAX) = JSNum.fin q ∧
      RATE_MIN ≤ q ∧ q ≤ RATE_MAX := by
  cases n with
  | nan => exact absurd rfl hn
  | inf =>
      refine ⟨RATE_MAX, rfl, ?_, le_refl _⟩
      norm_num [RATE_MIN, RATE_MAX]
  | negInf =>
      refine ⟨min RATE_MIN RATE_MAX, rfl, ?_, min_le_right _ _⟩
      have : RATE_MIN ≤ RATE_MAX := by norm_num [RATE_MIN, RATE_MAX]
      simp [this]
  | fin p =>
      refine ⟨min (max p RATE_MIN) RATE_MAX, rfl, ?_, min_le_right _ _⟩
      have h1 : RATE_MIN ≤ max p RATE_MIN := le_max_right _ _
      have h2 : RATE_MIN ≤ RATE_MAX := by norm_num [RATE_MIN, RATE_MAX]
      exact le_min h1 h2

/-- The default rate is finite and within range. -/
lemma default_rate_valid :
    ∃ q, DEFAULT_SETTINGS.rate = JSNum.fin q ∧ RATE_MIN ≤ q ∧ q ≤ RATE_MAX := by
  refine ⟨11 / 10, rfl, ?_, ?_⟩ <;> norm_num [RATE_MIN, RATE_MAX]

/-- Whatever value `normalizeSettings` receives, the rate it returns is
finite and within `[RATE_MIN, RATE_MAX]`. -/
lemma normalizeSettings_rate_valid (raw : JSValue) :
    ∃ q, (normalizeSettings raw).rate = JSNum.fin q ∧ RATE_MIN ≤ q ∧ q ≤ RATE_MAX := by
  cases raw with
  | null => exact default_rate_valid
  | undefined => exact default_rate_valid
  | bool b => exact default_rate_valid
  | num n => exact default_rate_valid
  | str s => exact default_rate_valid
  | obj fields =>
      cases hv : getField fields "rate" with
      | null => simpa [normalizeSettings, hv] using default_rate_valid
      | undefined => simpa [normalizeSettings, hv] using default_rate_valid
      | bool b => simpa [normalizeSettings, hv] using default_rate_valid
      | obj fs => simpa [normalizeSettings, hv] using default_rate_valid
      | num n =>
          cases n with
          | nan => simpa [normalizeSettings, hv] using default_rate_valid
          | inf => simpa [normalizeSettings, hv] using clamp_fin JSNum.inf (by simp)
          | negInf => simpa [normalizeSettings, hv] using clamp_fin JSNum.negInf (by simp)
          | fin p => simpa [normalizeSettings, hv] using clamp_fin (JSNum.fin p) (by simp)
      | str s =>
          cases hp : parseFloatModel s with
          | nan => simpa [normalizeSettings, hv, hp] using default_rate_valid
          | inf => simpa [normalizeSettings, hv, hp] using clamp_fin JSNum.inf (by simp)
          | negInf => simpa [normalizeSettings, hv, hp] using clamp_fin JSNum.negInf (by simp)
          | fin p => simpa [normalizeSettings, hv, hp] using clamp_fin (JSNum.fin p) (by simp)

/-- C7: `normalizeSettings` returns a well-formed `Settings` for every
input: `null`, `undefined` and non-objects map to the defaults; the
returned rate is always finite and within `[RATE_MIN, RATE_MAX]` and
the theme is always `classic` (the output is a `Settings` record, so
unknown extra fields are dropped by construction); a missing `rate` is
defaulted; a finite numeric `rate` is clamped to the range; a string
`rate` is coerced by numeric parsing and then clamped, falling back to
the default `1.1` when parsing yields `NaN`; a `NaN` rate falls back to
the default; a non-boolean flag is defaulted; and an unknown
`colorMode` string is defaulted. -/
theorem normalizeSettings_total_spec :
    (normalizeSettings JSValue.null = DEFAULT_SETTINGS) ∧
    (normalizeSettings JSValue.undefined = DEFAULT_SETTINGS) ∧
    (∀ b, normalizeSettings (JSValue.bool b) = DEFAULT_SETTINGS) ∧
    (∀ n, normalizeSettings (JSValue.num n) = DEFAULT_SETTINGS) ∧
    (∀ s, normalizeSettings (JSValue.str s) = DEFAULT_SETTINGS) ∧
    (∀ raw, ∃ q, (normalizeSettings raw).rate = JSNum.fin q ∧
        RATE_MIN ≤ q ∧ q ≤ RATE_MAX) ∧
    (∀ raw, (normalizeSettings raw).theme = Theme.classic) ∧
    (∀ fields, getField fields "rate" = JSValue.undefined →
        (normalizeSettings (JSValue.obj fields)).rate = DEFAULT_SETTINGS.rate) ∧
    (∀ fields q, getField fields "rate" = JSValue.num (JSNum.fin q) →
        (normalizeSettings (JSValue.obj fields)).rate
          = JSNum.fin (min (max q RATE_MIN) RATE_MAX)) ∧
    (∀ fields s q, getField fields "rate" = JSValue.str s →
        parseFloatModel s = JSNum.fin q →
        (normalizeSettings (JSValue.obj fields)).rate
          = JSNum.fin (min (max q RATE_MIN) RATE_MAX)) ∧
    (∀ fields s, getField fields "rate" = JSValue.str s →
        parseFloatModel s = JSNum.nan →
        (normalizeSettings (JSValue.obj fields)).rate = DEFAULT_SETTINGS.rate) ∧
    (∀ fields, getField fields "rate" = JSValue.num JSNum.nan →
        (normalizeSettings (JSValue.obj fields)).rate = DEFAULT_SETTINGS.rate) ∧
    (∀ fields v, getField fields "showSecondHand" = v → (∀ b, v ≠ JSValue.bool b) →
        (normalizeSettings (JSValue.obj fields)).showSecondHand
          = DEFAULT_SETTINGS.showSecondHand) ∧
    (∀ fields s, getField fields "colorMode" = JSValue.str s →
        s ≠ "system" → s ≠ "light" → s ≠ "dark" →
        (normalizeSettings (JSValue.obj fields)).colorMode
          = DEFAULT_SETTINGS.colorMode) := by
  refine ⟨rfl, rfl, fun b => rfl, fun n => rfl, fun s => rfl,
    normalizeSettings_rate_valid, ?_, ?_, ?_, ?_, ?_, ?_, ?_, ?_⟩
  · intro raw
    cases raw <;> simp [normalizeSettings, DEFAULT_SETTINGS]
  · intro fields hv
    simp [normalizeSettings, hv]
  · intro fields q hv
    simp [normalizeSettings, hv, clamp, jsMax, jsMin]
  · intro fields s q hv hp
    simp [normalizeSettings, hv, hp, clamp, jsMax, jsMin]
  · intro fields s hv hp
    simp [normalizeSettings, hv, hp]
  · intro fields hv
    simp [normalizeSettings, hv]
  · intro fields v hv hnb
    cases v with
    | bool b => exact absurd rfl (hnb b)
    | null => simp [normalizeSettings, hv]
    | undefined => simp [normalizeSettings, hv]
    | num n => simp [normalizeSettings, hv]
    | str s => simp [normalizeSettings, hv]
    | obj fs => simp [normalizeSettings, hv]
  · intro fields s hv h1 h2 h3
    simp [normalizeSettings, hv, isStr, h1, h2, h3]

theorem normalizeSettings_total_spec_witness :
    (normalizeSettings (JSValue.obj [("rate", JSValue.num (JSNum.fin 15))])).rate
      = JSNum.fin (min (max 15 RATE_MIN) RATE_MAX) :=
  normalizeSettings_total_spec.2.2.2.2.2.2.2.2.1
    [("rate", JSValue.num (JSNum.fin 15))] 15 rfl

/-- C8: for every valid `Settings` value `s` (finite rate within
`[RATE_MIN, RATE_MAX]`; the other fields are valid by type), loading
right after a successful save returns `s` unchanged. -/
theorem settings_roundTrip (s : Settings) (prev : Option JSONText)
    (h : ValidSettings s) :
    loadFromStorage (Except.ok (saveToStorage s prev false)) = s := by
  obtain ⟨q, hq, hmin, hmax⟩ := h
  cases s with
  | mk rate ssh sn sdt th cm =>
      cases th
      simp only at hq
      subst hq
      have hmaxq : max q RATE_MIN = q := max_eq_left hmin
      have hminq : min q RATE_MAX = q := min_eq_left hmax
      cases cm <;>
        simp [loadFromStorage, saveToStorage, settingsToJS, normalizeSettings,
          getField, List.lookup, isStr, colorModeToStr, clamp, jsMax, jsMin,
          hmaxq, hminq]

theorem settings_roundTrip_witness :
    loadFromStorage (Except.ok (saveToStorage DEFAULT_SETTINGS none false))
      = DEFAULT_SETTINGS :=
  settings_roundTrip DEFAULT_SETTINGS none
    ⟨11 / 10, rfl, by norm_num [RATE_MIN], by norm_num [RATE_MAX]⟩

/-- C9: `loadFromStorage` is a total function of the read outcome and
returns the defaults when the storage read throws, when nothing is
stored, and when the stored text is unparseable JSON; every value it
can return is well-formed (finite in-range rate); and a failing
`saveToStorage` write is swallowed silently, leaving storage unchanged. -/
theorem storage_error_handling :
    loadFromStorage (Except.error ()) = DEFAULT_SETTINGS ∧
    loadFromStorage (Except.ok none) = DEFAULT_SETTINGS ∧
    loadFromStorage (Except.ok (some JSONText.malformed)) = DEFAULT_SETTINGS ∧
    (∀ read, ∃ q, (loadFromStorage read).rate = JSNum.fin q ∧
        RATE_MIN ≤ q ∧ q ≤ RATE_MAX) ∧
    ∀ s prev, saveToStorage s prev true = prev := by
  refine ⟨rfl, rfl, rfl, ?_, fun s prev => rfl⟩
  intro read
  match read with
  | Except.error _ => exact default_rate_valid
  | Except.ok none => exact default_rate_valid
  | Except.ok (some JSONText.malformed) => exact default_rate_valid
  | Except.ok (some (JSONText.wellFormed v)) => exact normalizeSettings_rate_valid v

end MercurialClock
